import Mathlib

/-!
Shallow embedding of the `bluetooth-timeout` daemon (Rust) for checking its
natural-language specification.

The embedding covers:

* `src/timeout.rs` — the `TimeoutTask` countdown: its state is the pair
  `(timeout, last_notification_id)`; the effects of a run are recorded as a
  trace of `TimerStep`s (sleeps, warning notifications, the power-off call,
  the final notification).  Durations are modelled in whole seconds as `Nat`
  (`Duration::from_mins(5)` is `300`, `Duration::from_secs(60)` is `60`, …).
  Fallible external calls (`Notification::show`, `turn_off_adapter`) are
  modelled by outcome oracles passed as arguments; the Rust code pattern
  matches on the results and continues in both arms, which the embedding
  mirrors literally.
* `src/bluetooth/service.rs` — the `BluetoothService` controller: the Rust
  struct fields are mirrored in `BluetoothService`; the tokio task world
  (which spawned timer tasks are still running, which delayed-abort watchdogs
  are pending) is made explicit in `TaskEnv`.  D-Bus query results are passed
  in as oracle arguments (`Option` models a `Result` that the code consumes
  with `unwrap_or`).
-/

/-! ## Timer trace steps (effects of `TimeoutTask::run`, src/timeout.rs) -/

/-- One observable step of a `TimeoutTask` run.  `sleep d` is a
`tokio::time::sleep` of `d` seconds (a suspension point); `notifyWarn r res`
is a warning notification sent with remaining time `r` whose
`Notification::show` call returned `res` (`some id` on success, `none` on
failure); `powerOff ok` is the `turn_off_adapter` call with its outcome;
`notifyFinal res` is the final "adapter turned off" notification. -/
inductive TimerStep where
  | sleep (d : Nat)
  | notifyWarn (remaining : Nat) (result : Option Nat)
  | powerOff (ok : Bool)
  | notifyFinal (result : Option Nat)
  deriving DecidableEq, Repr

/-- The step with its fallible-call outcome erased, keeping durations and
remaining times.  Used to state that outcomes never influence which steps
run (src/timeout.rs logs failures and continues). -/
inductive TimerStepKind where
  | sleepK (d : Nat)
  | warnK (remaining : Nat)
  | powerK
  | finalK
  deriving DecidableEq, Repr

/-- Outcome-erasure of a `TimerStep`. -/
def stepKind : TimerStep → TimerStepKind
  | .sleep d => .sleepK d
  | .notifyWarn r _ => .warnK r
  | .powerOff _ => .powerK
  | .notifyFinal _ => .finalK

/-- Remaining-time values of the warning notifications in a trace, in order. -/
def warnValues : List TimerStep → List Nat
  | [] => []
  | .notifyWarn r _ :: rest => r :: warnValues rest
  | .sleep _ :: rest => warnValues rest
  | .powerOff _ :: rest => warnValues rest
  | .notifyFinal _ :: rest => warnValues rest

/-- Number of sleep segments in a trace. -/
def sleepCount : List TimerStep → Nat
  | [] => 0
  | .sleep _ :: rest => sleepCount rest + 1
  | .notifyWarn _ _ :: rest => sleepCount rest
  | .powerOff _ :: rest => sleepCount rest
  | .notifyFinal _ :: rest => sleepCount rest

/-- Total seconds slept in a trace. -/
def sleepSum : List TimerStep → Nat
  | [] => 0
  | .sleep d :: rest => d + sleepSum rest
  | .notifyWarn _ _ :: rest => sleepSum rest
  | .powerOff _ :: rest => sleepSum rest
  | .notifyFinal _ :: rest => sleepSum rest

/-- Annotate each step with the elapsed time (seconds since the task started)
at which it completes: a sleep is stamped with its resolution instant, the
instantaneous calls with the current clock. -/
def timedSteps (clock : Nat) : List TimerStep → List (Nat × TimerStep)
  | [] => []
  | .sleep d :: rest => (clock + d, .sleep d) :: timedSteps (clock + d) rest
  | .notifyWarn r res :: rest => (clock, .notifyWarn r res) :: timedSteps clock rest
  | .powerOff ok :: rest => (clock, .powerOff ok) :: timedSteps clock rest
  | .notifyFinal res :: rest => (clock, .notifyFinal res) :: timedSteps clock rest

/-! ## `TimeoutTask` (src/timeout.rs) -/

/-- State of a `TimeoutTask` (src/timeout.rs): the remaining `timeout`
duration (mutated by `notification_at`) and `last_notification_id`.
The `service_proxy` capability is not part of the state-relevant data; its
calls appear in the trace. -/
structure TimeoutTask where
  timeout : Nat
  lastNotificationId : Nat
  deriving DecidableEq, Repr

/-- `TimeoutTask::new(timeout, service_proxy)`: note that the constructor
receives only the total timeout (and the D-Bus proxy capability) — no
checkpoint list is passed in. -/
def TimeoutTask.new (timeout : Nat) : TimeoutTask :=
  { timeout := timeout, lastNotificationId := 0 }

/-- `TimeoutTask::send_notification`: sends a warning notification carrying
`duration`; stores the returned id, or `0` on failure (`.ok().unwrap_or(0)`).
`res` is the outcome of the `Notification::show` call. -/
def TimeoutTask.sendNotification (task : TimeoutTask) (duration : Nat)
    (res : Option Nat) : TimeoutTask × TimerStep :=
  ({ task with lastNotificationId := res.getD 0 }, .notifyWarn duration res)

/-- `TimeoutTask::notification_at`: if the remaining `timeout` is already
`≤ time`, return immediately (no sleep, no notification); otherwise sleep
`timeout - time`, set `timeout := time`, and send the warning notification.
`warnRes time` is the outcome of the `Notification::show` call made for the
checkpoint `time`. -/
def TimeoutTask.notificationAt (task : TimeoutTask) (time : Nat)
    (warnRes : Nat → Option Nat) : TimeoutTask × List TimerStep :=
  if task.timeout ≤ time then (task, [])
  else
    let slept : TimerStep := .sleep (task.timeout - time)
    let task1 : TimeoutTask := { task with timeout := time }
    let sent := task1.sendNotification time (warnRes time)
    (sent.1, [slept, sent.2])

/-- The checkpoints hardcoded in `TimeoutTask::run` (src/timeout.rs lines
145–148): `Duration::from_mins(5)`, `from_secs(60)`, `from_secs(30)`,
`from_secs(10)`. -/
def timeoutCheckpoints : List Nat := [5 * 60, 60, 30, 10]

/-- `TimeoutTask::run`: four literal `notification_at` calls (5 min, 60 s,
30 s, 10 s), then a final sleep of the remaining `timeout`, the
`turn_off_adapter` call (whose result is matched and logged in both arms),
and the final notification (whose failure is logged and dropped with
`.ok()`).  `warnRes`, `powerOk` and `finalRes` are the outcomes of the
external calls. -/
def TimeoutTask.run (task : TimeoutTask) (warnRes : Nat → Option Nat)
    (powerOk : Bool) (finalRes : Option Nat) : List TimerStep :=
  let r1 := task.notificationAt (5 * 60) warnRes
  let r2 := r1.1.notificationAt 60 warnRes
  let r3 := r2.1.notificationAt 30 warnRes
  let r4 := r3.1.notificationAt 10 warnRes
  r1.2 ++ r2.2 ++ r3.2 ++ r4.2 ++
    [.sleep r4.1.timeout, .powerOff powerOk, .notifyFinal finalRes]

/-- Generic sequencing of `notification_at` over a checkpoint list; the body
of `TimeoutTask.run` is this fold applied to `timeoutCheckpoints` (proved
below), which the structural lemmas induct over. -/
def runCheckpointList (task : TimeoutTask) (warnRes : Nat → Option Nat) :
    List Nat → TimeoutTask × List TimerStep
  | [] => (task, [])
  | t :: ts =>
    let r1 := task.notificationAt t warnRes
    let r2 := runCheckpointList r1.1 warnRes ts
    (r2.1, r1.2 ++ r2.2)

/-- `TimeoutTask.run` is the checkpoint fold over the hardcoded list followed
by the final sleep, power-off and final notification. -/
theorem run_eq_runCheckpointList (task : TimeoutTask) (warnRes : Nat → Option Nat)
    (powerOk : Bool) (finalRes : Option Nat) :
    task.run warnRes powerOk finalRes =
      (runCheckpointList task warnRes timeoutCheckpoints).2 ++
        [.sleep (runCheckpointList task warnRes timeoutCheckpoints).1.timeout,
         .powerOff powerOk, .notifyFinal finalRes] := by
  simp [TimeoutTask.run, runCheckpointList, timeoutCheckpoints]

example :
    warnValues ((TimeoutTask.new 20).run (fun _ => some 1) true (some 1)) = [10] := by
  decide

example :
    (TimeoutTask.new 10).run (fun _ => some 1) true (some 1) =
      [.sleep 10, .powerOff true, .notifyFinal (some 1)] := by
  decide

/-! ## Structural lemmas about the timer trace -/

theorem sleepSum_append (xs ys : List TimerStep) :
    sleepSum (xs ++ ys) = sleepSum xs + sleepSum ys := by
  induction xs with
  | nil => simp [sleepSum]
  | cons x rest ih => cases x <;> simp [sleepSum, ih] <;> omega

theorem warnValues_append (xs ys : List TimerStep) :
    warnValues (xs ++ ys) = warnValues xs ++ warnValues ys := by
  induction xs with
  | nil => simp [warnValues]
  | cons x rest ih => cases x <;> simp [warnValues, ih]

theorem sleepCount_append (xs ys : List TimerStep) :
    sleepCount (xs ++ ys) = sleepCount xs + sleepCount ys := by
  induction xs with
  | nil => simp [sleepCount]
  | cons x rest ih => cases x <;> simp [sleepCount, ih] <;> omega

theorem timedSteps_append (clock : Nat) (xs ys : List TimerStep) :
    timedSteps clock (xs ++ ys) =
      timedSteps clock xs ++ timedSteps (clock + sleepSum xs) ys := by
  induction xs generalizing clock with
  | nil => simp [timedSteps, sleepSum]
  | cons x rest ih =>
      cases x <;> simp [timedSteps, sleepSum, ih, Nat.add_assoc]

theorem mem_of_mem_timedSteps {clock : Nat} {xs : List TimerStep}
    {p : Nat × TimerStep} (h : p ∈ timedSteps clock xs) : p.2 ∈ xs := by
  induction xs generalizing clock with
  | nil => simp [timedSteps] at h
  | cons x rest ih =>
      cases x <;> simp [timedSteps] at h <;>
        rcases h with h | h <;> simp [h] <;> exact Or.inr (ih h)

theorem notificationAt_of_le (task : TimeoutTask) (t : Nat) (wr : Nat → Option Nat)
    (h : task.timeout ≤ t) : task.notificationAt t wr = (task, []) := by
  simp [TimeoutTask.notificationAt, h]

theorem notificationAt_of_lt (task : TimeoutTask) (t : Nat) (wr : Nat → Option Nat)
    (h : t < task.timeout) :
    task.notificationAt t wr =
      ({ timeout := t, lastNotificationId := (wr t).getD 0 },
       [.sleep (task.timeout - t), .notifyWarn t (wr t)]) := by
  simp [TimeoutTask.notificationAt, TimeoutTask.sendNotification, Nat.not_le.mpr h]

/-- Telescoping: the seconds slept across the checkpoint calls plus the
remaining `timeout` equal the initial `timeout`. -/
theorem runCheckpointList_timeout_sleepSum (wr : Nat → Option Nat) :
    ∀ (ts : List Nat) (task : TimeoutTask),
      (runCheckpointList task wr ts).1.timeout +
        sleepSum (runCheckpointList task wr ts).2 = task.timeout := by
  intro ts
  induction ts with
  | nil => intro task; simp [runCheckpointList, sleepSum]
  | cons t ts ih =>
      intro task
      by_cases h : task.timeout ≤ t
      · simp [runCheckpointList, notificationAt_of_le _ _ _ h, ih]
      · push_neg at h
        simp only [runCheckpointList, notificationAt_of_lt _ _ _ h]
        have hih := ih { timeout := t, lastNotificationId := (wr t).getD 0 }
        simp only [sleepSum_append, sleepSum]
        simp at hih ⊢
        omega

/-- With strictly descending checkpoints, exactly the checkpoints strictly
below the current `timeout` fire, in order. -/
theorem warnValues_runCheckpointList (wr : Nat → Option Nat) :
    ∀ (ts : List Nat) (task : TimeoutTask), List.Pairwise (· > ·) ts →
      warnValues (runCheckpointList task wr ts).2 =
        ts.filter (fun x => x < task.timeout) := by
  intro ts
  induction ts with
  | nil => intro task _; simp [runCheckpointList, warnValues]
  | cons t ts ih =>
      intro task hpw
      have htail : List.Pairwise (· > ·) ts := hpw.tail
      have hhead : ∀ x ∈ ts, t > x := fun x hx => List.rel_of_pairwise_cons hpw hx
      by_cases h : task.timeout ≤ t
      · have hf : ¬ (t < task.timeout) := by omega
        simp [runCheckpointList, notificationAt_of_le _ _ _ h, ih _ htail,
          List.filter_cons, hf]
      · push_neg at h
        simp only [runCheckpointList, notificationAt_of_lt _ _ _ h]
        rw [warnValues_append]
        have h1 : ts.filter (fun x => decide (x < t)) = ts :=
          List.filter_eq_self.mpr (fun a ha => by
            have := hhead a ha; simp; omega)
        have h2 : ts.filter (fun x => decide (x < task.timeout)) = ts :=
          List.filter_eq_self.mpr (fun a ha => by
            have := hhead a ha; simp; omega)
        simp [warnValues, ih _ htail, List.filter_cons, h, h1, h2]

/-- After the checkpoint calls, the remaining `timeout` is the last (hence
smallest) fired checkpoint, or the original `timeout` if none fired. -/
theorem timeout_runCheckpointList (wr : Nat → Option Nat) :
    ∀ (ts : List Nat) (task : TimeoutTask), List.Pairwise (· > ·) ts →
      (runCheckpointList task wr ts).1.timeout =
        (ts.filter (fun x => x < task.timeout)).getLastD task.timeout := by
  intro ts
  induction ts with
  | nil => intro task _; simp [runCheckpointList]
  | cons t ts ih =>
      intro task hpw
      have htail : List.Pairwise (· > ·) ts := hpw.tail
      have hhead : ∀ x ∈ ts, t > x := fun x hx => List.rel_of_pairwise_cons hpw hx
      by_cases h : task.timeout ≤ t
      · have hf : ¬ (t < task.timeout) := by omega
        simp [runCheckpointList, notificationAt_of_le _ _ _ h, ih _ htail,
          List.filter_cons, hf]
      · push_neg at h
        simp only [runCheckpointList, notificationAt_of_lt _ _ _ h]
        have h1 : ts.filter (fun x => decide (x < t)) = ts :=
          List.filter_eq_self.mpr (fun a ha => by
            have := hhead a ha; simp; omega)
        have h2 : ts.filter (fun x => decide (x < task.timeout)) = ts :=
          List.filter_eq_self.mpr (fun a ha => by
            have := hhead a ha; simp; omega)
        have := ih { timeout := t, lastNotificationId := (wr t).getD 0 } htail
        simp [this, h1, h2, List.filter_cons, h, List.getLastD_cons]
        simp [← List.getLastD_eq_getLast?, List.getLastD_cons]

/-- Every step produced by the checkpoint calls is a sleep or a warning
notification (never the power-off or the final notification). -/
theorem mem_runCheckpointList_steps (wr : Nat → Option Nat) :
    ∀ (ts : List Nat) (task : TimeoutTask) (s : TimerStep),
      s ∈ (runCheckpointList task wr ts).2 →
        (∃ d, s = .sleep d) ∨ (∃ r res, s = .notifyWarn r res) := by
  intro ts
  induction ts with
  | nil => intro task s hs; simp [runCheckpointList] at hs
  | cons t ts ih =>
      intro task s hs
      by_cases h : task.timeout ≤ t
      · rw [runCheckpointList] at hs
        rw [notificationAt_of_le _ _ _ h] at hs
        simp at hs
        exact ih _ _ hs
      · push_neg at h
        rw [runCheckpointList] at hs
        rw [notificationAt_of_lt _ _ _ h] at hs
        simp at hs
        rcases hs with h1 | h1 | h1
        · exact Or.inl ⟨_, h1⟩
        · exact Or.inr ⟨_, _, h1⟩
        · exact ih _ _ h1

/-- Which steps run (their kinds, durations and remaining times, and the
final remaining `timeout`) does not depend on the outcomes of the
notification calls. -/
theorem runCheckpointList_kinds (wr wr' : Nat → Option Nat) :
    ∀ (ts : List Nat) (task task' : TimeoutTask),
      task.timeout = task'.timeout →
      (runCheckpointList task wr ts).1.timeout =
          (runCheckpointList task' wr' ts).1.timeout ∧
        (runCheckpointList task wr ts).2.map stepKind =
          (runCheckpointList task' wr' ts).2.map stepKind := by
  intro ts
  induction ts with
  | nil => intro task task' h; simp [runCheckpointList, h]
  | cons t ts ih =>
      intro task task' h
      by_cases hle : task.timeout ≤ t
      · have hle' : task'.timeout ≤ t := h ▸ hle
        simp only [runCheckpointList, notificationAt_of_le _ _ _ hle,
          notificationAt_of_le _ _ _ hle']
        simpa using ih task task' h
      · push_neg at hle
        have hlt' : t < task'.timeout := h ▸ hle
        simp only [runCheckpointList, notificationAt_of_lt _ _ _ hle,
          notificationAt_of_lt _ _ _ hlt']
        have := ih { timeout := t, lastNotificationId := (wr t).getD 0 }
          { timeout := t, lastNotificationId := (wr' t).getD 0 } rfl
        simp [List.map_append, this.1, this.2, stepKind, h]

/-! ## Controller (`BluetoothService`, src/bluetooth/service.rs) -/

/-- `BluetoothServiceState` (src/bluetooth/service.rs): `Off`, `Idle`,
`Running`. -/
inductive BluetoothServiceState where
  | Off
  | Idle
  | Running
  deriving DecidableEq, Repr

/-- `BluetoothDevice` (src/bluetooth/device.rs). -/
structure BluetoothDevice where
  object_path : String
  common_name : Option String
  connected : Bool
  deriving DecidableEq, Repr

/-- `BluetoothEvent` as consumed by `BluetoothService::start`
(src/bluetooth/service.rs lines 127–150): `AdapterOn`, `AdapterOff`,
`InterfaceAdded`, `InterfaceRemoved`. -/
inductive BluetoothEvent where
  | AdapterOn
  | AdapterOff
  | InterfaceAdded
  | InterfaceRemoved
  deriving DecidableEq, Repr

/-- The `BluetoothService` struct fields that carry state
(src/bluetooth/service.rs lines 28–43).  `rx` records whether a broadcast
receiver has been subscribed (`Option<Receiver<_>>::is_some()`); the
`service_proxy` capability is modelled by the query oracles passed to the
handlers.  `activeTimer` holds the id of the `JoinHandle` of the active
timeout task, if any. -/
structure BluetoothService where
  iface : String
  rx : Bool
  state : BluetoothServiceState
  activeTimer : Option Nat
  timeout : Nat
  deriving DecidableEq, Repr

/-- The tokio task world surrounding the controller: `liveTasks` are the ids
of spawned `TimeoutTask`s that are still running (spawned, not yet finished
or aborted) — a held `JoinHandle` id answers `is_finished()` as `true` iff it
is not in this list; `pendingAborts` are the ids whose delayed-abort watchdog
(the 3-second grace task spawned by `on_adapter_off`) has been scheduled but
has not yet fired; `nextId` generates fresh task ids. -/
structure TaskEnv where
  liveTasks : List Nat
  pendingAborts : List Nat
  nextId : Nat
  deriving DecidableEq, Repr

/-- A controller together with its task world. -/
structure Sys where
  svc : BluetoothService
  env : TaskEnv
  deriving DecidableEq, Repr

/-- `get_connected_devices_count_from_proxy` (src/bluetooth/service.rs lines
46–51): `proxy.get_devices().await.unwrap_or(vec![])`, then count the
devices with `connected == true`.  `devicesRes` is the oracle result of the
`get_devices` D-Bus round trip (`none` models `Err`). -/
def getConnectedDevicesCountFromProxy (devicesRes : Option (List BluetoothDevice)) : Nat :=
  ((devicesRes.getD []).filter (fun dev => dev.connected)).length

/-- `self.active_timer.is_none() || self.active_timer.as_ref().unwrap().is_finished()`. -/
def timerNoneOrFinished (s : Sys) : Bool :=
  match s.svc.activeTimer with
  | none => true
  | some id => !(s.env.liveTasks.contains id)

/-- `TimeoutTask::new(self.timeout, self.service_proxy.clone()).spawn()`:
a fresh task id becomes the held handle and starts running. -/
def spawnTimeoutTask (s : Sys) : Sys :=
  { svc := { s.svc with activeTimer := some s.env.nextId },
    env := { s.env with
              liveTasks := s.env.nextId :: s.env.liveTasks,
              nextId := s.env.nextId + 1 } }

/-- `self.active_timer.take().unwrap().abort()`: the handle is removed and
the task `id` stops running. -/
def abortActiveTimer (s : Sys) (id : Nat) : Sys :=
  { svc := { s.svc with activeTimer := none },
    env := { s.env with liveTasks := s.env.liveTasks.erase id } }

/-- `BluetoothService::on_adapter_on` (src/bluetooth/service.rs lines
158–186): in `Off`/`Idle` with no live held timer, spawn a new timeout task;
in `Running` with a live held timer, abort it; otherwise leave the timer
alone.  Then re-query the connected-device count and set the state to
`Running` if it is positive, else `Idle`.  `count` is the oracle result of
`get_connected_devices_count`. -/
def onAdapterOnTimer (s : Sys) : Sys :=
  match s.svc.state with
  | .Off | .Idle => if timerNoneOrFinished s then spawnTimeoutTask s else s
  | .Running =>
    match s.svc.activeTimer with
    | some id => if s.env.liveTasks.contains id then abortActiveTimer s id else s
    | none => s

/-- Continuation of `on_adapter_on`: after the timer-management `match`, the
connected-device count is re-queried and the state set accordingly. -/
def onAdapterOn (s : Sys) (count : Nat) : Sys :=
  let s1 := onAdapterOnTimer s
  if count > 0 then { s1 with svc := { s1.svc with state := .Running } }
  else { s1 with svc := { s1.svc with state := .Idle } }

/-- `BluetoothService::on_adapter_off` (src/bluetooth/service.rs lines
191–211): if a timer handle is held, take it and spawn a watchdog task that
sleeps 3 seconds and then aborts the timer if it has not finished; set the
state to `Off`. -/
def onAdapterOff (s : Sys) : Sys :=
  let s1 : Sys :=
    match s.svc.activeTimer with
    | some id =>
        { svc := { s.svc with activeTimer := none },
          env := { s.env with pendingAborts := id :: s.env.pendingAborts } }
    | none => s
  { s1 with svc := { s1.svc with state := .Off } }

/-- `BluetoothService::on_interface_changed` (src/bluetooth/service.rs lines
231–253): re-query the count; if positive, take the held handle (aborting it
if still live) and go `Running`; if zero, spawn a timer only when no handle
is held, and go `Idle`. -/
def onInterfaceChangedTake (s : Sys) : Sys :=
  match s.svc.activeTimer with
  | some id =>
      if s.env.liveTasks.contains id then abortActiveTimer s id
      else { s with svc := { s.svc with activeTimer := none } }
  | none => s

/-- Body of `on_interface_changed` (see `onInterfaceChangedTake` for the
`if let Some(timer) = self.active_timer.take()` block of the positive
branch). -/
def onInterfaceChanged (s : Sys) (count : Nat) : Sys :=
  if count > 0 then
    let s1 := onInterfaceChangedTake s
    { s1 with svc := { s1.svc with state := .Running } }
  else
    let s1 := if s.svc.activeTimer = none then spawnTimeoutTask s else s
    { s1 with svc := { s1.svc with state := .Idle } }

/-- `on_interface_added` delegates to `on_interface_changed`. -/
def onInterfaceAdded (s : Sys) (count : Nat) : Sys := onInterfaceChanged s count

/-- `on_interface_removed` delegates to `on_interface_changed`. -/
def onInterfaceRemoved (s : Sys) (count : Nat) : Sys := onInterfaceChanged s count

/-- Dispatch of one received event (the `match event` in
`BluetoothService::start`); handler errors are logged and discarded
(`let _ = ... .inspect_err(...)`), so dispatch always continues. -/
def handleEvent (s : Sys) (e : BluetoothEvent) (count : Nat) : Sys :=
  match e with
  | .AdapterOn => onAdapterOn s count
  | .AdapterOff => onAdapterOff s
  | .InterfaceAdded => onInterfaceAdded s count
  | .InterfaceRemoved => onInterfaceRemoved s count

/-- One transition of the combined system: either the controller handles a
delivered event (with the count the re-query would return), or a running
timeout task finishes naturally, or a scheduled 3-second watchdog fires and
aborts its task if the task has not finished. -/
inductive SysStep where
  | deliver (e : BluetoothEvent) (count : Nat)
  | taskFinishes (id : Nat)
  | watchdogFires (id : Nat)
  deriving DecidableEq, Repr

/-- Transition function for `SysStep`. -/
def sysStep (s : Sys) : SysStep → Sys
  | .deliver e count => handleEvent s e count
  | .taskFinishes id =>
      if s.env.liveTasks.contains id then
        { s with env := { s.env with liveTasks := s.env.liveTasks.erase id } }
      else s
  | .watchdogFires id =>
      if s.env.pendingAborts.contains id then
        { s with env := { s.env with
            pendingAborts := s.env.pendingAborts.erase id,
            liveTasks := s.env.liveTasks.erase id } }
      else s

/-- Run a list of system transitions. -/
def runSteps (s : Sys) (steps : List SysStep) : Sys := steps.foldl sysStep s

/-- `BluetoothService::new` (src/bluetooth/service.rs lines 63–103): query
the connected count (`unwrap_or(vec![])`) and the powered state
(`unwrap_or(false)`), derive the initial state, fail on the inconsistent
combination (adapter off with connected devices), and spawn a timeout task
iff the initial state is `Idle`. -/
def BluetoothService.new (iface : String) (timeout : Nat)
    (poweredRes : Option Bool) (devicesRes : Option (List BluetoothDevice)) :
    Except String Sys :=
  let numConnectedDevices := getConnectedDevicesCountFromProxy devicesRes
  let powered := poweredRes.getD false
  let emptyEnv : TaskEnv := { liveTasks := [], pendingAborts := [], nextId := 0 }
  let mk : BluetoothServiceState → Sys := fun st =>
    { svc := { iface := iface, rx := false, state := st, activeTimer := none,
               timeout := timeout },
      env := emptyEnv }
  match powered, numConnectedDevices with
  | false, 0 => .ok (mk .Off)
  | true, 0 => .ok (spawnTimeoutTask (mk .Idle))
  | true, _ + 1 => .ok (mk .Running)
  | false, _ + 1 =>
      .error "Could not determine BluetoothService state or encountered unexpected state"

/-- A system is reachable when it arises from a successful
`BluetoothService::new` followed by any sequence of transitions. -/
def Reachable (s : Sys) : Prop :=
  ∃ iface timeout poweredRes devicesRes s0 steps,
    BluetoothService.new iface timeout poweredRes devicesRes = .ok s0 ∧
      s = runSteps s0 steps

/-! ## Event loop (`BluetoothService::start`, src/bluetooth/service.rs) -/

/-- Result of one `rx.recv().await` on the tokio broadcast receiver:
a delivered event, `Err(RecvError::Lagged(n))` after the subscriber fell
behind by `n` events, or `Err(RecvError::Closed)`. -/
inductive RecvResult where
  | ok (e : BluetoothEvent)
  | lagged (skipped : Nat)
  | closed
  deriving DecidableEq, Repr

/-- How a call to `BluetoothService::start` returns: the guard error when no
receiver was subscribed, or the propagated receive error (the `?` on
`rx.recv().await`). -/
inductive StartExit where
  | noReceiver
  | recvLagged (skipped : Nat)
  | recvClosed
  deriving DecidableEq, Repr

/-- The `loop` body of `BluetoothService::start` (src/bluetooth/service.rs
lines 123–151) applied to a finite schedule of receive results, each paired
with the count a re-query during its handling would return: `rx.recv().await?`
propagates both `Lagged` and `Closed` out of `start`, ending the loop;
a delivered event is dispatched and the loop continues.  Returns the final
system and the exit reason (`none` when the schedule is exhausted with the
loop still running). -/
def runEventLoop (s : Sys) : List (RecvResult × Nat) → Sys × Option StartExit
  | [] => (s, none)
  | (r, count) :: rest =>
    match r with
    | .closed => (s, some .recvClosed)
    | .lagged n => (s, some (.recvLagged n))
    | .ok e => runEventLoop (handleEvent s e count) rest

/-- `BluetoothService::start` (src/bluetooth/service.rs lines 115–152):
error out immediately when no receiver has been subscribed; otherwise take
the receiver (`self.rx.take()`) and run the loop. -/
def BluetoothService.start (s : Sys) (inputs : List (RecvResult × Nat)) :
    Sys × Option StartExit :=
  if s.svc.rx = false then (s, some .noReceiver)
  else runEventLoop { s with svc := { s.svc with rx := false } } inputs

/-- `BluetoothService::subscribe_to`. -/
def BluetoothService.subscribeTo (s : Sys) : Sys :=
  { s with svc := { s.svc with rx := true } }

/-! ## Timer-ownership invariant of the controller -/

/-- Ownership discipline of timer tasks, independent of the adapter state:
the running tasks are pairwise distinct; every running task is either the
held handle or has a 3-second abort watchdog pending; ids are generated
fresh. -/
def TimerEnvInv (s : Sys) : Prop :=
  s.env.liveTasks.Nodup ∧
  (∀ id ∈ s.env.liveTasks, s.svc.activeTimer = some id ∨ id ∈ s.env.pendingAborts) ∧
  (∀ id ∈ s.env.liveTasks, id < s.env.nextId) ∧
  (∀ id, s.svc.activeTimer = some id → id < s.env.nextId)

/-- The invariant the reachable controller states actually satisfy:
`TimerEnvInv` together with: in state `Off` no timer handle is held. -/
def TimerInv (s : Sys) : Prop :=
  TimerEnvInv s ∧ (s.svc.state = .Off → s.svc.activeTimer = none)

theorem timerEnvInv_setState (s : Sys) (st : BluetoothServiceState) :
    TimerEnvInv { s with svc := { s.svc with state := st } } ↔ TimerEnvInv s :=
  Iff.rfl

theorem noneOrFinished_spec (s : Sys) (hT : timerNoneOrFinished s = true) :
    ∀ id, s.svc.activeTimer = some id → id ∉ s.env.liveTasks := by
  intro id hid
  simp [timerNoneOrFinished, hid] at hT
  exact hT

theorem timerEnvInv_spawn (s : Sys) (h : TimerEnvInv s)
    (hT : timerNoneOrFinished s = true) : TimerEnvInv (spawnTimeoutTask s) := by
  obtain ⟨hnd, hlive, hfresh, hfresh2⟩ := h
  refine ⟨?_, ?_, ?_, ?_⟩
  · simp only [spawnTimeoutTask]
    exact List.nodup_cons.mpr ⟨fun hmem => absurd (hfresh _ hmem) (lt_irrefl _), hnd⟩
  · intro id hid
    simp only [spawnTimeoutTask] at hid ⊢
    rcases List.mem_cons.mp hid with rfl | hid
    · exact Or.inl rfl
    · rcases hlive id hid with hat | hp
      · exact absurd hid (noneOrFinished_spec s hT id hat)
      · exact Or.inr hp
  · intro id hid
    simp only [spawnTimeoutTask] at hid ⊢
    rcases List.mem_cons.mp hid with rfl | hid
    · omega
    · have := hfresh id hid; omega
  · intro id hid
    simp only [spawnTimeoutTask] at hid
    obtain rfl : s.env.nextId = id := Option.some.inj hid
    simp only [spawnTimeoutTask]
    omega

theorem timerEnvInv_abort (s : Sys) (id : Nat) (h : TimerEnvInv s)
    (hsome : s.svc.activeTimer = some id) : TimerEnvInv (abortActiveTimer s id) := by
  obtain ⟨hnd, hlive, hfresh, hfresh2⟩ := h
  refine ⟨?_, ?_, ?_, ?_⟩
  · simp only [abortActiveTimer]
    exact hnd.erase id
  · intro j hj
    simp only [abortActiveTimer] at hj ⊢
    obtain ⟨hne, hjl⟩ := (List.Nodup.mem_erase_iff hnd).mp hj
    rcases hlive j hjl with hat | hp
    · rw [hsome] at hat
      exact absurd (Option.some.inj hat).symm hne
    · exact Or.inr hp
  · intro j hj
    simp only [abortActiveTimer] at hj ⊢
    exact hfresh j (List.mem_of_mem_erase hj)
  · intro j hj
    simp only [abortActiveTimer] at hj
    exact Option.noConfusion hj

/-- Taking a finished handle without aborting (`active_timer.take()` in the
positive branch of `on_interface_changed`). -/
theorem timerEnvInv_take (s : Sys) (id : Nat) (h : TimerEnvInv s)
    (hsome : s.svc.activeTimer = some id) (hfin : id ∉ s.env.liveTasks) :
    TimerEnvInv { s with svc := { s.svc with activeTimer := none } } := by
  obtain ⟨hnd, hlive, hfresh, hfresh2⟩ := h
  refine ⟨hnd, ?_, hfresh, ?_⟩
  · intro j hj
    rcases hlive j hj with hat | hp
    · rw [hsome] at hat
      obtain rfl : id = j := Option.some.inj hat
      exact absurd hj hfin
    · exact Or.inr hp
  · intro j hj
    exact Option.noConfusion hj

theorem timerInv_onAdapterOn (s : Sys) (count : Nat) (h : TimerInv s) :
    TimerInv (onAdapterOn s count) := by
  obtain ⟨he, _⟩ := h
  have h1 : TimerEnvInv (onAdapterOnTimer s) := by
    unfold onAdapterOnTimer
    split
    · split
      · exact timerEnvInv_spawn s he (by assumption)
      · exact he
    · split
      · exact timerEnvInv_spawn s he (by assumption)
      · exact he
    · split
      · rename_i id heq
        split
        · exact timerEnvInv_abort s id he heq
        · exact he
      · exact he
  unfold onAdapterOn
  split
  · exact ⟨h1, fun habs => nomatch habs⟩
  · exact ⟨h1, fun habs => nomatch habs⟩

theorem timerInv_onAdapterOff (s : Sys) (h : TimerInv s) :
    TimerInv (onAdapterOff s) := by
  obtain ⟨⟨hnd, hlive, hfresh, hfresh2⟩, _⟩ := h
  unfold onAdapterOff
  split
  · rename_i id heq
    refine ⟨⟨hnd, ?_, hfresh, ?_⟩, fun _ => rfl⟩
    · intro j hj
      rcases hlive j hj with hat | hp
      · rw [heq] at hat
        obtain rfl : id = j := Option.some.inj hat
        exact Or.inr (List.mem_cons_self _ _)
      · exact Or.inr (List.mem_cons_of_mem _ hp)
    · intro j hj
      exact Option.noConfusion hj
  · rename_i heq
    exact ⟨⟨hnd, hlive, hfresh, hfresh2⟩, fun _ => heq⟩

theorem timerInv_onInterfaceChanged (s : Sys) (count : Nat) (h : TimerInv s) :
    TimerInv (onInterfaceChanged s count) := by
  obtain ⟨he, _⟩ := h
  unfold onInterfaceChanged
  split
  · have h1 : TimerEnvInv (onInterfaceChangedTake s) := by
      unfold onInterfaceChangedTake
      split
      · split
        · rename_i id heq hcont
          exact timerEnvInv_abort s id he heq
        · rename_i id heq hcont
          refine timerEnvInv_take s id he heq ?_
          intro hmem
          exact hcont (by simpa using hmem)
      · exact he
    exact ⟨h1, fun habs => nomatch habs⟩
  · have h1 : TimerEnvInv (if s.svc.activeTimer = none then spawnTimeoutTask s else s) := by
      split
      · rename_i heq
        exact timerEnvInv_spawn s he (by simp [timerNoneOrFinished, heq])
      · exact he
    exact ⟨h1, fun habs => nomatch habs⟩

theorem timerInv_handleEvent (s : Sys) (e : BluetoothEvent) (count : Nat)
    (h : TimerInv s) : TimerInv (handleEvent s e count) := by
  cases e with
  | AdapterOn => exact timerInv_onAdapterOn s count h
  | AdapterOff => exact timerInv_onAdapterOff s h
  | InterfaceAdded => exact timerInv_onInterfaceChanged s count h
  | InterfaceRemoved => exact timerInv_onInterfaceChanged s count h

theorem timerInv_sysStep (s : Sys) (st : SysStep) (h : TimerInv s) :
    TimerInv (sysStep s st) := by
  obtain ⟨⟨hnd, hlive, hfresh, hfresh2⟩, hoff⟩ := h
  cases st with
  | deliver e count => exact timerInv_handleEvent s e count ⟨⟨hnd, hlive, hfresh, hfresh2⟩, hoff⟩
  | taskFinishes id =>
      simp only [sysStep]
      split
      · refine ⟨⟨hnd.erase id, ?_, ?_, hfresh2⟩, hoff⟩
        · intro j hj
          exact hlive j (List.mem_of_mem_erase hj)
        · intro j hj
          exact hfresh j (List.mem_of_mem_erase hj)
      · exact ⟨⟨hnd, hlive, hfresh, hfresh2⟩, hoff⟩
  | watchdogFires id =>
      simp only [sysStep]
      split
      · refine ⟨⟨hnd.erase id, ?_, ?_, hfresh2⟩, hoff⟩
        · intro j hj
          obtain ⟨hne, hjl⟩ := (List.Nodup.mem_erase_iff hnd).mp hj
          rcases hlive j hjl with hat | hp
          · exact Or.inl hat
          · exact Or.inr ((List.mem_erase_of_ne hne).mpr hp)
        · intro j hj
          exact hfresh j (List.mem_of_mem_erase hj)
      · exact ⟨⟨hnd, hlive, hfresh, hfresh2⟩, hoff⟩

theorem timerInv_runSteps (s : Sys) (steps : List SysStep) (h : TimerInv s) :
    TimerInv (runSteps s steps) := by
  induction steps generalizing s with
  | nil => exact h
  | cons st rest ih => exact ih (sysStep s st) (timerInv_sysStep s st h)

theorem timerInv_new (iface : String) (timeout : Nat) (poweredRes : Option Bool)
    (devicesRes : Option (List BluetoothDevice)) (s0 : Sys)
    (h : BluetoothService.new iface timeout poweredRes devicesRes = .ok s0) :
    TimerInv s0 := by
  cases hp : poweredRes.getD false <;>
    cases hn : getConnectedDevicesCountFromProxy devicesRes <;>
      simp only [BluetoothService.new, hp, hn] at h
  · injection h with h'
    subst h'
    refine ⟨⟨List.nodup_nil, ?_, ?_, ?_⟩, fun _ => rfl⟩ <;> simp
  · exact Except.noConfusion h
  · injection h with h'
    subst h'
    refine ⟨⟨?_, ?_, ?_, ?_⟩, fun habs => nomatch habs⟩ <;>
      simp [spawnTimeoutTask]
  · injection h with h'
    subst h'
    refine ⟨⟨List.nodup_nil, ?_, ?_, ?_⟩, fun habs => nomatch habs⟩ <;> simp

/-- Every reachable system satisfies the timer-ownership invariant. -/
theorem timerInv_reachable (s : Sys) (h : Reachable s) : TimerInv s := by
  obtain ⟨iface, timeout, poweredRes, devicesRes, s0, steps, hnew, rfl⟩ := h
  exact timerInv_runSteps s0 steps (timerInv_new _ _ _ _ _ hnew)

/-! ## Derived facts about a full `TimeoutTask::run` -/

theorem timeoutCheckpoints_pairwise : List.Pairwise (· > ·) timeoutCheckpoints := by
  decide

/-- The warning notifications of a full run are exactly the hardcoded
checkpoints strictly below the total timeout, in order. -/
theorem warnValues_run (D : Nat) (wr : Nat → Option Nat) (po : Bool) (fr : Option Nat) :
    warnValues ((TimeoutTask.new D).run wr po fr) =
      timeoutCheckpoints.filter (fun t => t < D) := by
  rw [run_eq_runCheckpointList, warnValues_append]
  rw [warnValues_runCheckpointList wr timeoutCheckpoints _ timeoutCheckpoints_pairwise]
  simp [warnValues, TimeoutTask.new]

theorem sleepCount_eq_warn_length (wr : Nat → Option Nat) :
    ∀ (ts : List Nat) (task : TimeoutTask),
      sleepCount (runCheckpointList task wr ts).2 =
        (warnValues (runCheckpointList task wr ts).2).length := by
  intro ts
  induction ts with
  | nil => intro task; simp [runCheckpointList, sleepCount, warnValues]
  | cons t ts ih =>
      intro task
      by_cases h : task.timeout ≤ t
      · simp [runCheckpointList, notificationAt_of_le _ _ _ h, ih]
      · push_neg at h
        simp only [runCheckpointList, notificationAt_of_lt _ _ _ h]
        rw [sleepCount_append, warnValues_append]
        simp [sleepCount, warnValues, ih]
        omega

/-- The timed trace of a full run splits into the checkpoint part and the
three final entries, all stamped with elapsed time exactly `D`. -/
theorem timedSteps_run (D : Nat) (wr : Nat → Option Nat) (po : Bool) (fr : Option Nat) :
    timedSteps 0 ((TimeoutTask.new D).run wr po fr) =
      timedSteps 0 (runCheckpointList (TimeoutTask.new D) wr timeoutCheckpoints).2 ++
        [(D, .sleep ((runCheckpointList (TimeoutTask.new D) wr timeoutCheckpoints).1.timeout)),
         (D, .powerOff po), (D, .notifyFinal fr)] := by
  have hsum := runCheckpointList_timeout_sleepSum wr timeoutCheckpoints (TimeoutTask.new D)
  have hD : (TimeoutTask.new D).timeout = D := rfl
  rw [hD] at hsum
  rw [run_eq_runCheckpointList, timedSteps_append]
  simp [timedSteps]
  omega

/-- In the timed trace, the power-off call carries elapsed time exactly the
total timeout `D` (and the outcome it was given). -/
theorem timed_powerOff_time (D : Nat) (wr : Nat → Option Nat) (po : Bool)
    (fr : Option Nat) (t : Nat) (b : Bool)
    (h : (t, TimerStep.powerOff b) ∈ timedSteps 0 ((TimeoutTask.new D).run wr po fr)) :
    t = D := by
  rw [timedSteps_run] at h
  rcases List.mem_append.mp h with h | h
  · exfalso
    have hstep := mem_of_mem_timedSteps h
    rcases mem_runCheckpointList_steps wr timeoutCheckpoints _ _ hstep with ⟨d, hd⟩ | ⟨r, res, hr⟩
    · exact TimerStep.noConfusion hd
    · exact TimerStep.noConfusion hr
  · simp at h
    exact h.1

/-! ## Cancellation timing model (`on_adapter_off`, src/bluetooth/service.rs) -/

/-- The grace period of the watchdog spawned by `on_adapter_off`:
`tokio::time::sleep(Duration::from_secs(3))` before the abort. -/
def abortGraceSecs : Nat := 3

/-- The timer steps that still execute when `AdapterOff` is handled at
elapsed time `cancelAt` (seconds since the countdown started): the watchdog
aborts the task `abortGraceSecs` later, so exactly the steps completing
strictly before `cancelAt + abortGraceSecs` run.  (If the task finishes
before the watchdog fires, the watchdog does nothing — consistent with this
filter, since then every step completes before the abort instant.) -/
def stepsExecutedAfterCancel (cancelAt : Nat) (steps : List TimerStep) :
    List (Nat × TimerStep) :=
  (timedSteps 0 steps).filter (fun p => p.1 < cancelAt + abortGraceSecs)

/-! ## Configuration (`Conf`, src/configuration.rs) -/

/-- `DBusConf` (src/configuration.rs lines 73–94). -/
structure DBusConf where
  service : String
  adapter_iface : String
  adapter_path : String
  device_iface : String
  deriving DecidableEq, Repr

/-- `Conf` (src/configuration.rs lines 47–68): `timeout`,
`notifications_enabled`, `notifications_at` (list of durations before the
timeout end at which warnings should be sent), and D-Bus settings.
Durations in whole seconds. -/
structure Conf where
  timeout : Nat
  notifications_enabled : Bool
  notifications_at : List Nat
  dbus : DBusConf
  deriving DecidableEq, Repr

/-- `impl Default for Conf` (src/configuration.rs lines 96–115):
`timeout = 5m1s = 301s`, notifications enabled,
`notifications_at = [5m, 1m, 30s, 10s]`. -/
def Conf.default : Conf :=
  { timeout := 301,
    notifications_enabled := true,
    notifications_at := [5 * 60, 1 * 60, 30, 10],
    dbus := { service := "org.bluez",
              adapter_iface := "org.bluez.Adapter1",
              adapter_path := "/org/bluez/hci0",
              device_iface := "org.bluez.Device1" } }

/-- Modelled from the spec: the claim asserts that the checkpoints at which
a countdown emits warnings are exactly the configured ordered list
`notifications_at`, restricted to values strictly below the total timeout.
This definition follows the claim wording, for comparison against the
behaviour of `TimeoutTask::run` as embedded from the source. -/
def claimedWarnCheckpoints (conf : Conf) : List Nat :=
  conf.notifications_at.filter (fun t => t < conf.timeout)

/-! ## Concrete systems used by counterexamples and witnesses -/

/-- A connected device, for concrete initialization runs. -/
def demoDevice : BluetoothDevice :=
  { object_path := "/org/bluez/hci0/dev_AA_BB", common_name := some "headset",
    connected := true }

/-- The system produced by `BluetoothService::new` when the adapter is
powered with one connected device: state `Running`, no timer. -/
def runningSys : Sys :=
  { svc := { iface := "hci0", rx := false, state := .Running, activeTimer := none,
             timeout := 10 },
    env := { liveTasks := [], pendingAborts := [], nextId := 0 } }

/-- A system in state `Off` with no held timer (as produced by
`BluetoothService::new` on a powered-off adapter). -/
def offSys : Sys :=
  { svc := { iface := "hci0", rx := false, state := .Off, activeTimer := none,
             timeout := 10 },
    env := { liveTasks := [], pendingAborts := [], nextId := 0 } }

/-- Event sequence: `AdapterOff` (recount 0), then `AdapterOn` while one
device is still connected (recount 1). -/
def c1Steps : List SysStep :=
  [.deliver .AdapterOff 0, .deliver .AdapterOn 1]

/-- The system reached from `runningSys` by `c1Steps`. -/
def c1Sys : Sys := runSteps runningSys c1Steps

example : BluetoothService.new "hci0" 10 (some true) (some [demoDevice]) =
    .ok runningSys := rfl

example : c1Sys.svc.state = .Running ∧ c1Sys.env.liveTasks = [0] ∧
    c1Sys.env.pendingAborts = [] := by decide

/-- Helper: overwriting the state field with its current value is the
identity. -/
theorem setState_eq_self (s : Sys) (st : BluetoothServiceState)
    (h : s.svc.state = st) :
    { s with svc := { s.svc with state := st } } = s := by
  obtain ⟨⟨i, r, st0, a, t⟩, e⟩ := s
  cases h
  rfl

/-! ## Claim C3 -/

/-- C3: `BluetoothService::new` queries powered-state and connected-count
once (both are single oracle arguments) and derives the initial state by the
table `(false, 0) ↦ Off`, `(true, 0) ↦ Idle` (spawning the timer),
`(true, >0) ↦ Running`; it returns the state-inconsistency error exactly
when the adapter is reported off (or the powered query failed, which
`unwrap_or(false)` treats as off) while the connected count is positive, and
no other queried combination makes it fail. -/
theorem new_initial_state_table (iface : String) (timeout : Nat)
    (poweredRes : Option Bool) (devicesRes : Option (List BluetoothDevice)) :
    ((∃ msg, BluetoothService.new iface timeout poweredRes devicesRes = .error msg) ↔
       poweredRes.getD false = false ∧
         0 < getConnectedDevicesCountFromProxy devicesRes) ∧
    (poweredRes.getD false = false → getConnectedDevicesCountFromProxy devicesRes = 0 →
       ∃ s, BluetoothService.new iface timeout poweredRes devicesRes = .ok s ∧
         s.svc.state = .Off ∧ s.svc.activeTimer = none) ∧
    (poweredRes.getD false = true → getConnectedDevicesCountFromProxy devicesRes = 0 →
       ∃ s, BluetoothService.new iface timeout poweredRes devicesRes = .ok s ∧
         s.svc.state = .Idle ∧
         ∃ id, s.svc.activeTimer = some id ∧ id ∈ s.env.liveTasks) ∧
    (poweredRes.getD false = true → 0 < getConnectedDevicesCountFromProxy devicesRes →
       ∃ s, BluetoothService.new iface timeout poweredRes devicesRes = .ok s ∧
         s.svc.state = .Running ∧ s.svc.activeTimer = none) := by
  cases hp : poweredRes.getD false <;>
    cases hn : getConnectedDevicesCountFromProxy devicesRes <;>
      refine ⟨⟨?_, ?_⟩, ?_, ?_, ?_⟩ <;>
        simp only [BluetoothService.new, hp, hn] <;>
          simp [spawnTimeoutTask]

/-- Witness for C3 at Scenario 4 of the spec: powered reported `false` with
two connected devices is rejected. -/
theorem new_initial_state_table_witness :
    ∃ msg, BluetoothService.new "hci0" 301 (some false)
      (some [demoDevice, demoDevice]) = .error msg :=
  (new_initial_state_table "hci0" 301 (some false)
      (some [demoDevice, demoDevice])).1.mpr ⟨rfl, by decide⟩

/-! ## Claim C7 -/

/-- C7: the code does NOT recover from channel lag.  When `rx.recv().await`
yields `Err(RecvError::Lagged(n))`, the `?` operator in the loop of
`BluetoothService::start` propagates it: the loop terminates immediately
with the error, the remaining schedule is never processed, no recount
happens, and the system is returned unchanged — contradicting the claim that
`Lagged` is treated as a forced recount and not surfaced as an error. -/
theorem lagged_terminates_loop (s : Sys) (n count : Nat)
    (rest : List (RecvResult × Nat)) :
    runEventLoop s ((RecvResult.lagged n, count) :: rest) =
      (s, some (StartExit.recvLagged n)) := rfl

/-! ## Claim C10 -/

/-- C10: calling `start` before `subscribe_to` provided a receiver returns
the guard error immediately; the returned system is the input system
unchanged (no event is processed, state and active timer untouched). -/
theorem start_without_receiver_errors (s : Sys) (inputs : List (RecvResult × Nat))
    (h : s.svc.rx = false) :
    BluetoothService.start s inputs = (s, some StartExit.noReceiver) := by
  unfold BluetoothService.start
  simp [h]

/-- Witness for C10: a freshly initialized system (no receiver subscribed)
with a nonempty schedule. -/
theorem start_without_receiver_errors_witness :
    BluetoothService.start runningSys [(RecvResult.ok .AdapterOff, 0)] =
      (runningSys, some StartExit.noReceiver) :=
  start_without_receiver_errors runningSys [(RecvResult.ok .AdapterOff, 0)] rfl

/-! ## Claim C8 -/

/-- C8 counterexample: `on_adapter_on` while `Running` does not leave the
state unchanged: it re-queries the count, and if the count is now `0` the
state moves to `Idle` (with no timer spawned).  `runningSys` is reachable
directly from `BluetoothService::new`. -/
theorem c8_counterexample :
    Reachable runningSys ∧ runningSys.svc.state = .Running ∧
      (handleEvent runningSys .AdapterOn 0).svc.state = .Idle ∧
      handleEvent runningSys .AdapterOn 0 ≠ runningSys := by
  refine ⟨⟨"hci0", 10, some true, some [demoDevice], runningSys, [], rfl, rfl⟩,
    rfl, by decide, by decide⟩

/-- C8 amended: `AdapterOn` while `Running` leaves state and timer unchanged
provided the re-queried count is still positive and the held handle (if any)
is no longer live; `AdapterOff` while `Off` leaves state and timer unchanged
provided no handle is held (true of every reachable `Off` state, by
`timerInv_reachable`). -/
theorem adapter_handlers_idempotent (s s' : Sys) (count : Nat)
    (hRun : s.svc.state = .Running)
    (hNoLive : ∀ id, s.svc.activeTimer = some id → id ∉ s.env.liveTasks)
    (hCount : 0 < count)
    (hOff : s'.svc.state = .Off) (hNone : s'.svc.activeTimer = none) :
    onAdapterOn s count = s ∧ onAdapterOff s' = s' := by
  constructor
  · have hTimer : onAdapterOnTimer s = s := by
      unfold onAdapterOnTimer
      rw [hRun]
      cases hat : s.svc.activeTimer with
      | none => rfl
      | some id =>
          have hc : ¬ id ∈ s.env.liveTasks := hNoLive id hat
          simp [hc]
    unfold onAdapterOn
    rw [hTimer]
    simp only [hCount, if_pos]
    exact setState_eq_self s .Running hRun
  · unfold onAdapterOff
    rw [hNone]
    exact setState_eq_self s' .Off hOff

/-- Witness for C8 amended: `AdapterOn` on the reachable `Running` system
with one device still connected, and `AdapterOff` on the `Off` system. -/
theorem adapter_handlers_idempotent_witness :
    onAdapterOn runningSys 1 = runningSys ∧ onAdapterOff offSys = offSys :=
  adapter_handlers_idempotent runningSys offSys 1 rfl
    (fun id h => Option.noConfusion h) (by decide) rfl rfl

/-! ## Claim C1 -/

/-- C1 counterexample: from a reachable `Running` state (adapter on, one
device connected), `AdapterOff` followed by `AdapterOn` with the device
still connected spawns a timeout task (the spawn happens before the recount)
and then sets the state to `Running`.  The reached system has state
`Running`, a held, live timer task, and no cancellation in flight
(`pendingAborts = []`), so "a CountdownTimer instance exists iff the state
is Idle" fails outside any cancellation/completion race window. -/
theorem c1_counterexample :
    Reachable c1Sys ∧ c1Sys.env.liveTasks = [0] ∧
      c1Sys.env.pendingAborts = [] ∧ c1Sys.svc.activeTimer = some 0 ∧
      c1Sys.svc.state = .Running := by
  exact ⟨⟨"hci0", 10, some true, some [demoDevice], runningSys, c1Steps, rfl, rfl⟩,
    by decide, by decide, by decide, by decide⟩

/-- C1 amended: what every reachable system does satisfy: every live timer
task is either the single held handle or has a pending 3-second abort; in
particular at most one live timer exists outside cancellation windows; and
an `Off` state never holds a timer handle.  The "exists iff Idle"
biconditional itself is false (see the counterexample). -/
theorem timer_ownership_invariant (s : Sys) (h : Reachable s) :
    (∀ id ∈ s.env.liveTasks,
        s.svc.activeTimer = some id ∨ id ∈ s.env.pendingAborts) ∧
    (s.svc.state = .Off → s.svc.activeTimer = none) ∧
    (∀ id1 ∈ s.env.liveTasks, ∀ id2 ∈ s.env.liveTasks,
        id1 ∉ s.env.pendingAborts → id2 ∉ s.env.pendingAborts → id1 = id2) := by
  obtain ⟨⟨hnd, hlive, hfresh, hfresh2⟩, hoff⟩ := timerInv_reachable s h
  refine ⟨hlive, hoff, ?_⟩
  intro i hi j hj hpi hpj
  rcases hlive i hi with hai | hp
  · rcases hlive j hj with haj | hp'
    · rw [hai] at haj
      exact Option.some.inj haj
    · exact absurd hp' hpj
  · exact absurd hp hpi

/-- Witness for the amended C1 invariant at the concrete reachable system of
the counterexample trace. -/
theorem timer_ownership_invariant_witness :
    (∀ id ∈ c1Sys.env.liveTasks,
        c1Sys.svc.activeTimer = some id ∨ id ∈ c1Sys.env.pendingAborts) ∧
    (c1Sys.svc.state = .Off → c1Sys.svc.activeTimer = none) ∧
    (∀ id1 ∈ c1Sys.env.liveTasks, ∀ id2 ∈ c1Sys.env.liveTasks,
        id1 ∉ c1Sys.env.pendingAborts → id2 ∉ c1Sys.env.pendingAborts →
          id1 = id2) :=
  timer_ownership_invariant c1Sys
    ⟨"hci0", 10, some true, some [demoDevice], runningSys, c1Steps, rfl, rfl⟩

/-! ## Claim C2 -/

/-- C2 counterexample: a countdown with `D = 10` seconds, `AdapterOff`
handled at elapsed `9` seconds — strictly before the final suspension point
resolves at `10` seconds.  The watchdog only aborts at `9 + 3 = 12` seconds,
so the power-off (stamped at elapsed `10 < 12`) still executes: `power_off`
IS called although cancellation was requested before the final suspension
point resolved. -/
theorem c2_counterexample :
    9 < 10 ∧
      (10, TimerStep.powerOff true) ∈
        stepsExecutedAfterCancel 9
          ((TimeoutTask.new 10).run (fun _ => some 1) true (some 1)) := by
  constructor
  · decide
  · decide

/-- C2 amended: the code only guarantees the absence of the power-off when
`AdapterOff` is handled more than the 3-second watchdog grace period before
the final suspension point resolves, i.e. when `cancelAt + 3 < D`; delivery
merely before the final resolution (`cancelAt < D`) is not enough. -/
theorem cancel_before_grace_prevents_power_off (D cancelAt : Nat)
    (wr : Nat → Option Nat) (po : Bool) (fr : Option Nat)
    (h : cancelAt + abortGraceSecs < D) (t : Nat) (b : Bool) :
    (t, TimerStep.powerOff b) ∉
      stepsExecutedAfterCancel cancelAt ((TimeoutTask.new D).run wr po fr) := by
  intro hmem
  unfold stepsExecutedAfterCancel at hmem
  obtain ⟨hmem', htime⟩ := List.mem_filter.mp hmem
  have ht := timed_powerOff_time D wr po fr t b hmem'
  simp at htime
  omega

/-- Witness for the amended C2: cancellation at elapsed `0` of a `4`-second
countdown (abort at `3 < 4`) prevents the power-off. -/
theorem cancel_before_grace_prevents_power_off_witness :
    (4, TimerStep.powerOff true) ∉
      stepsExecutedAfterCancel 0
        ((TimeoutTask.new 4).run (fun _ => some 1) true (some 1)) :=
  cancel_before_grace_prevents_power_off 4 0 (fun _ => some 1) true (some 1)
    (by decide) 4 true

/-! ## Claim C4 -/

/-- A configuration with a warning checkpoint list different from the
built-in one: a single warning at 7 seconds remaining, total timeout 20
seconds. -/
def c4Conf : Conf :=
  { Conf.default with timeout := 20, notifications_at := [7] }

/-- C4 counterexample: `TimeoutTask::new` receives only the timeout — the
configured `notifications_at` list is never passed to the timer — and
`TimeoutTask::run` warns at its hardcoded checkpoints.  Under `c4Conf`
(timeout 20 s, `notifications_at = [7]`) the run warns at remaining `10`
(a hardcoded checkpoint), not at the configured `7`. -/
theorem c4_counterexample :
    warnValues ((TimeoutTask.new c4Conf.timeout).run (fun _ => some 1) true
        (some 1)) = [10] ∧
      claimedWarnCheckpoints c4Conf = [7] ∧
      warnValues ((TimeoutTask.new c4Conf.timeout).run (fun _ => some 1) true
        (some 1)) ≠ claimedWarnCheckpoints c4Conf := by
  exact ⟨by decide, by decide, by decide⟩

/-- C4 amended: for every configuration, the warning checkpoints of a
countdown constructed with the configured timeout are the hardcoded list
`[5 min, 60 s, 30 s, 10 s]` of `TimeoutTask::run` restricted to values
strictly below the timeout; the configured `notifications_at` (whose
DEFAULT value coincides with the hardcoded list) and `notifications_enabled`
are not consulted by the timer. -/
theorem warn_checkpoints_hardcoded (conf : Conf) (wr : Nat → Option Nat)
    (po : Bool) (fr : Option Nat) :
    warnValues ((TimeoutTask.new conf.timeout).run wr po fr) =
        timeoutCheckpoints.filter (fun t => t < conf.timeout) ∧
      timeoutCheckpoints = Conf.default.notifications_at :=
  ⟨warnValues_run conf.timeout wr po fr, rfl⟩

/-! ## Claim C5 -/

/-- C5: for a countdown with total duration `D`, a hardcoded checkpoint
fires iff it is strictly below `D` (checkpoints `≥ D` are skipped — they
contribute neither a sleep nor a notification, witnessed by the sleep count
being exactly one more than the number of fired warnings); the fired
warnings are pairwise strictly decreasing in remaining time and free of
duplicates (each fires exactly once). -/
theorem warnings_strictly_decreasing (D : Nat) (wr : Nat → Option Nat)
    (po : Bool) (fr : Option Nat) :
    warnValues ((TimeoutTask.new D).run wr po fr) =
        timeoutCheckpoints.filter (fun t => t < D) ∧
      List.Pairwise (· > ·) (warnValues ((TimeoutTask.new D).run wr po fr)) ∧
      (warnValues ((TimeoutTask.new D).run wr po fr)).Nodup ∧
      sleepCount ((TimeoutTask.new D).run wr po fr) =
        (warnValues ((TimeoutTask.new D).run wr po fr)).length + 1 := by
  have hw := warnValues_run D wr po fr
  have hpw : List.Pairwise (· > ·)
      (warnValues ((TimeoutTask.new D).run wr po fr)) := by
    rw [hw]
    exact List.Pairwise.filter _ timeoutCheckpoints_pairwise
  refine ⟨hw, hpw, ?_, ?_⟩
  · exact hpw.imp (fun hlt => (Nat.ne_of_lt hlt).symm)
  · rw [run_eq_runCheckpointList, sleepCount_append, warnValues_append]
    rw [sleepCount_eq_warn_length]
    simp [sleepCount, warnValues]

/-! ## Claim C6 -/

/-- C6: an uncancelled countdown ends with a final sleep of the remainder —
the smallest fired checkpoint if any fired (`getLastD` of the descending
fired list), else the full `D` — followed immediately by the
`turn_off_adapter` call and then the final notification; in the timed trace
both the power-off and the final notification are stamped at elapsed time
exactly `D`. -/
theorem completion_power_off_at_timeout (D : Nat) (wr : Nat → Option Nat)
    (po : Bool) (fr : Option Nat) :
    (∃ pre, (TimeoutTask.new D).run wr po fr =
        pre ++ [TimerStep.sleep
            ((timeoutCheckpoints.filter (fun t => t < D)).getLastD D),
          TimerStep.powerOff po, TimerStep.notifyFinal fr]) ∧
      (D, TimerStep.powerOff po) ∈
        timedSteps 0 ((TimeoutTask.new D).run wr po fr) ∧
      (D, TimerStep.notifyFinal fr) ∈
        timedSteps 0 ((TimeoutTask.new D).run wr po fr) := by
  have hrem : (runCheckpointList (TimeoutTask.new D) wr timeoutCheckpoints).1.timeout =
      (timeoutCheckpoints.filter (fun t => t < D)).getLastD D := by
    have := timeout_runCheckpointList wr timeoutCheckpoints (TimeoutTask.new D)
      timeoutCheckpoints_pairwise
    simpa [TimeoutTask.new] using this
  refine ⟨?_, ?_, ?_⟩
  · exact ⟨(runCheckpointList (TimeoutTask.new D) wr timeoutCheckpoints).2,
      by rw [run_eq_runCheckpointList, hrem]⟩
  · rw [timedSteps_run]
    simp
  · rw [timedSteps_run]
    simp

/-! ## Claim C9 -/

/-- C9: the outcomes of the notification sends and of the power-off call
never change which steps a countdown runs: the outcome-erased trace equals
the all-successes trace (same sleeps, same warning checkpoints, same order),
and in every run — whatever fails — the power-off call and the final
notification are still attempted.  `TimeoutTask.run` returns a trace, never
an error: failures are logged inside and not propagated. -/
theorem failures_never_abort_run (D : Nat) (wr : Nat → Option Nat)
    (po : Bool) (fr : Option Nat) :
    ((TimeoutTask.new D).run wr po fr).map stepKind =
        ((TimeoutTask.new D).run (fun _ => some 0) true (some 0)).map stepKind ∧
      TimerStep.powerOff po ∈ (TimeoutTask.new D).run wr po fr ∧
      TimerStep.notifyFinal fr ∈ (TimeoutTask.new D).run wr po fr := by
  refine ⟨?_, ?_, ?_⟩
  · rw [run_eq_runCheckpointList, run_eq_runCheckpointList]
    have hk := runCheckpointList_kinds wr (fun _ => some 0) timeoutCheckpoints
      (TimeoutTask.new D) (TimeoutTask.new D) rfl
    simp [stepKind, hk.1, hk.2]
  · rw [run_eq_runCheckpointList]
    simp
  · rw [run_eq_runCheckpointList]
    simp
